import Mathlib

/-!
Verification development for the nendb-go driver.

The repository is a Go HTTP client for the NenDB graph database.  The
development below shallowly embeds the three packages that carry the
program logic:

* `pkg/errors` (`errors.go`): the classified error type `NenDBError`
  (message, details map, kind tag) and its five constructors.
* `pkg/types` (`types.go`): `GraphNode`, `GraphEdge`, `AlgorithmResult`
  and friends with their validating constructors and `Validate`
  methods, plus `IsValidPropertyValue`.
* `pkg/client` (`client.go`): `ClientConfig`, `DefaultConfig`,
  `NewClient`, `Health` and the retrying request primitive
  `makeRequest`.

Modelling conventions:

* Go `int` is `Int`; `time.Duration` is `Int` (nanoseconds).
* A Go `interface\x7b\x7d` value is `GoValue`; the payload of float
  values is not modelled (no claim inspects a floating-point value,
  only its reflect kind).
* A Go map that may be `nil` is `Option (List (key × value))`:
  `none` is the nil map, `some l` an allocated map with entries `l`.
  Likewise a possibly-nil slice is `Option (List α)`.
* A Go `error` is `GoError`: either a classified `NenDBError` from
  `pkg/errors` or a plain `fmt.Errorf` error carrying its message.
* The network is an oracle `Nat → AttemptOutcome` giving, for each
  attempt index, the outcome of `httpClient.Do` (and of reading the
  response body) on that attempt.  `time.Sleep` is recorded as an
  event in a trace; the sleep in the source takes no context, so the
  event is emitted unconditionally, exactly as in the code.
* The error struct's `Time time.Time` field (set to `time.Now()`) is
  not modelled: wall-clock time is outside the embedding.
-/

/-- Model of a Go `interface\x7b\x7d` value, by reflect kind.  Only the
kinds exercised by the repository appear.  Numeric float payloads are
not carried (no claim depends on them). -/
inductive GoValue where
  | nil
  | str (s : String)
  | int (n : Int)
  | int8 (n : Int)
  | int16 (n : Int)
  | int32 (n : Int)
  | int64 (n : Int)
  | uint (n : Nat)
  | uint8 (n : Nat)
  | uint16 (n : Nat)
  | uint32 (n : Nat)
  | uint64 (n : Nat)
  | float32
  | float64
  | bool (b : Bool)
  | slice (elems : List GoValue)
  | mapv (entries : List (String × GoValue))
  | structv
  | funcv

/-- Model of `map[string]interface\x7b\x7d`, possibly nil. -/
abbrev GoStrMap := Option (List (String × GoValue))

/-- The five kind tags of the `pkg/errors` hierarchy
(`NenDBConnectionError`, `NenDBTimeoutError`, `NenDBValidationError`,
`NenDBAlgorithmError`, `NenDBResponseError`). -/
inductive ErrorKind where
  | connection
  | timeout
  | validation
  | algorithm
  | response
deriving DecidableEq

/-- Embeds `errors.NenDBError`: message plus details map (the `Time` field is
not modelled).  `details` is stored already normalized, as produced by
`errors.New`. -/
structure NenDBError where
  kind : ErrorKind
  message : String
  details : List (String × GoValue)

/-- Embeds `errors.New` (and through it the five kinded constructors): a nil
details map is replaced by an empty one. -/
def errors.New (kind : ErrorKind) (message : String) (details : GoStrMap) : NenDBError :=
  ⟨kind, message, details.getD []⟩

/-- A Go `error` value as returned by this repository: either a
classified error from `pkg/errors` or a plain `fmt.Errorf` error. -/
inductive GoError where
  | classified (e : NenDBError)
  | errorf (msg : String)

namespace types

/-- Embeds the `types.AlgorithmStatus` constants. -/
inductive AlgorithmStatus where
  | statusQueued
  | statusRunning
  | statusCompleted
  | statusFailed
  | statusCancelled
deriving DecidableEq

/-- Embeds `types.GraphNode`. -/
structure GraphNode where
  ID : Int
  Labels : Option (List String)
  Properties : GoStrMap

/-- Embeds `types.NewGraphNode`. -/
def NewGraphNode (id : Int) (labels : Option (List String)) (properties : GoStrMap) :
    Except GoError GraphNode :=
  if id < 0 then
    .error (.errorf "node ID must be a non-negative integer")
  else
    let labels := match labels with | none => some [] | some l => some l
    let properties := match properties with | none => some [] | some p => some p
    .ok ⟨id, labels, properties⟩

/-- Embeds `(*GraphNode).Validate`; `none` is a nil error (success). -/
def GraphNode.Validate (n : GraphNode) : Option GoError :=
  if n.ID < 0 then
    some (.errorf "node ID must be a non-negative integer")
  else if n.Labels.isNone then
    some (.errorf "labels cannot be nil")
  else if n.Properties.isNone then
    some (.errorf "properties cannot be nil")
  else
    none

/-- Embeds `types.GraphEdge`. -/
structure GraphEdge where
  ID : Int
  Source : Int
  Target : Int
  EdgeType : String
  Properties : GoStrMap

/-- Embeds `types.NewGraphEdge`. -/
def NewGraphEdge (id source target : Int) (edgeType : String) (properties : GoStrMap) :
    Except GoError GraphEdge :=
  if id < 0 then
    .error (.errorf "edge ID must be a non-negative integer")
  else if source < 0 then
    .error (.errorf "source node ID must be a non-negative integer")
  else if target < 0 then
    .error (.errorf "target node ID must be a non-negative integer")
  else if edgeType = "" then
    .error (.errorf "edge type cannot be empty")
  else
    let properties := match properties with | none => some [] | some p => some p
    .ok ⟨id, source, target, edgeType, properties⟩

/-- Embeds `(*GraphEdge).Validate`. -/
def GraphEdge.Validate (e : GraphEdge) : Option GoError :=
  if e.ID < 0 then
    some (.errorf "edge ID must be a non-negative integer")
  else if e.Source < 0 then
    some (.errorf "source node ID must be a non-negative integer")
  else if e.Target < 0 then
    some (.errorf "target node ID must be a non-negative integer")
  else if e.EdgeType = "" then
    some (.errorf "edge type cannot be empty")
  else if e.Properties.isNone then
    some (.errorf "properties cannot be nil")
  else
    none

/-- Embeds `types.AlgorithmResult`. -/
structure AlgorithmResult where
  Algorithm : String
  Status : AlgorithmStatus
  Message : String
  Metadata : GoStrMap

/-- Embeds `types.NewAlgorithmResult`. -/
def NewAlgorithmResult (algorithm : String) (status : AlgorithmStatus)
    (message : String) (metadata : GoStrMap) : Except GoError AlgorithmResult :=
  if algorithm = "" then
    .error (.errorf "algorithm name cannot be empty")
  else if message = "" then
    .error (.errorf "message cannot be empty")
  else
    let metadata := match metadata with | none => some [] | some m => some m
    .ok ⟨algorithm, status, message, metadata⟩

/-- Embeds `(*AlgorithmResult).Validate`. -/
def AlgorithmResult.Validate (r : AlgorithmResult) : Option GoError :=
  if r.Algorithm = "" then
    some (.errorf "algorithm name cannot be empty")
  else if r.Message = "" then
    some (.errorf "message cannot be empty")
  else if r.Metadata.isNone then
    some (.errorf "metadata cannot be nil")
  else
    none

/-- Embeds `types.BFSResult`. -/
structure BFSResult where
  base : AlgorithmResult
  VisitedNodes : Option (List Int)
  Path : Option (List Int)
  Depth : Int

/-- Embeds `types.NewBFSResult`. -/
def NewBFSResult (base : AlgorithmResult) (visitedNodes path : Option (List Int))
    (depth : Int) : BFSResult :=
  let visitedNodes := match visitedNodes with | none => some [] | some l => some l
  let path := match path with | none => some [] | some l => some l
  ⟨base, visitedNodes, path, depth⟩

/-- Embeds `types.IsValidPropertyValue`: nil and every scalar reflect kind
(string, all signed and unsigned integer widths, both float widths,
bool) are valid; every other kind is not. -/
def IsValidPropertyValue : GoValue → Bool
  | .nil => true
  | .str _ => true
  | .int _ => true
  | .int8 _ => true
  | .int16 _ => true
  | .int32 _ => true
  | .int64 _ => true
  | .uint _ => true
  | .uint8 _ => true
  | .uint16 _ => true
  | .uint32 _ => true
  | .uint64 _ => true
  | .float32 => true
  | .float64 => true
  | .bool _ => true
  | .slice _ => false
  | .mapv _ => false
  | .structv => false
  | .funcv => false

end types

namespace client

/-- The part of Go's `http.Client` the repository configures: its
`Timeout` field.  In Go a zero `Timeout` means no timeout. -/
structure HttpClientHandle where
  timeout : Int

/-- Embeds `client.ClientConfig`. -/
structure ClientConfig where
  BaseURL : String
  Timeout : Int
  MaxRetries : Int
  RetryDelay : Int
  SkipValidation : Bool
  HTTPClient : Option HttpClientHandle

/-- Embeds `client.DefaultConfig`: address `http://localhost:8080`, 30s
timeout, 3 retries, 1s retry delay; the remaining fields keep their Go
zero values (`false`, `nil`). -/
def DefaultConfig : ClientConfig :=
  ⟨"http://localhost:8080", 30 * 1000000000, 3, 1 * 1000000000, false, none⟩

/-- Embeds `client.NenDBClient`. -/
structure NenDBClient where
  config : ClientConfig
  httpClient : HttpClientHandle
  baseURL : String

/-- An HTTP response body: the raw bytes together with the outcome of
`json.Unmarshal` into a `map[string]interface\x7b\x7d`.
`asMap = none` means the unmarshal fails (bytes are not a JSON object
or JSON null); `asMap = some none` means it succeeds leaving the map
nil (bytes are JSON `null`); `asMap = some (some l)` means the bytes
are a JSON object with entries `l`. -/
structure HttpBody where
  bytes : String
  asMap : Option GoStrMap

/-- Outcome of one attempt of the loop body in `makeRequest`: either
`httpClient.Do` fails, or reading the response body fails, or a
response with a status code, status line (Go's `resp.Status`, e.g.
`"404 Not Found"`) and body is obtained. -/
inductive AttemptOutcome where
  | transportError (msg : String)
  | bodyReadError (msg : String)
  | response (status : Nat) (statusText : String) (body : HttpBody)

/-- Events observable during `makeRequest`: the backoff sleeps
(`time.Sleep`, which takes no context and always runs for its full
duration) and the attempts (`httpClient.Do`), in order. -/
inductive ReqEvent where
  | sleep (d : Int)
  | attempt (k : Nat)
deriving DecidableEq

/-- Result of `makeRequest`: the Go pair `([]byte, error)` as an
`Except`, plus the trace of sleeps and attempts. -/
structure ReqResult where
  result : Except NenDBError String
  events : List ReqEvent

/-- Embeds `errorResp["message"].(string)`: look up a key in a decoded JSON
object and type-assert the value to a string. -/
def lookupStringKey (entries : List (String × GoValue)) (key : String) : Option String :=
  match entries.lookup key with
  | some (.str s) => some s
  | _ => none

/-- One iteration of the retry loop in `makeRequest`, after the
attempt's outcome is known: `.inl msg` means `lastErr = msg; continue`,
`.inr r` means the function returns `r` immediately.

Source: 2xx returns the body bytes; status ≥ 400 parses the body as a
generic map, takes its `message` field when that is a string and
otherwise synthesizes `"HTTP <code>: <status>"`, and returns a
response error; every other outcome (transport failure, unreadable
body, or a remaining status code) records `lastErr` and retries. -/
def handleOutcome : AttemptOutcome → Sum String (Except NenDBError String)
  | .transportError msg => .inl msg
  | .bodyReadError msg => .inl msg
  | .response status statusText body =>
    if 200 ≤ status ∧ status < 300 then
      .inr (.ok body.bytes)
    else if 400 ≤ status then
      match body.asMap with
      | some errorResp =>
        let message :=
          match lookupStringKey (errorResp.getD []) "message" with
          | some msg => msg
          | none => "HTTP " ++ toString status ++ ": " ++ statusText
        .inr (.error (errors.New .response message errorResp))
      | none =>
        .inr (.error (errors.New .response
          ("HTTP " ++ toString status ++ ": " ++ statusText) none))
    else
      .inl ("unexpected status code: " ++ toString status)

/-- The value `makeRequest` returns once the loop exhausts all
attempts: a timeout error wrapping the last recorded error, or with no
details when none was recorded. -/
def exhaustedResult : Option String → Except NenDBError String
  | some m => .error (errors.New .timeout "Request failed after all retries"
      (some [("error", .str m)]))
  | none => .error (errors.New .timeout "Request failed after all retries" none)

/-- The events of attempt number `k`: the backoff sleep
`time.Sleep(RetryDelay * attempt)` when `attempt > 0`, then the
attempt itself. -/
def eventsFor (d : Int) (k : Nat) : List ReqEvent :=
  (if 0 < k then [ReqEvent.sleep (d * (k : Int))] else []) ++ [ReqEvent.attempt k]

/-- The retry loop of `makeRequest`: `fuel` is the number of loop
iterations left (`MaxRetries + 1` at the start), `k` the current value
of `attempt`, the `Option String` the current `lastErr`. -/
def runAttempts (cfg : ClientConfig) (oracle : Nat → AttemptOutcome) :
    Nat → Nat → Option String → ReqResult
  | 0, _, lastErr => ⟨exhaustedResult lastErr, []⟩
  | fuel + 1, k, _ =>
    let evs := eventsFor cfg.RetryDelay k
    match handleOutcome (oracle k) with
    | .inr res => ⟨res, evs⟩
    | .inl msg =>
      let rest := runAttempts cfg oracle fuel (k + 1) (some msg)
      ⟨rest.result, evs ++ rest.events⟩

/-- Embeds `(*NenDBClient).makeRequest`.  The prelude of the source function
builds the request URL from the stored base address and the endpoint,
encodes query parameters when present, and marshals the body to JSON;
those steps fail only with validation errors on a malformed URL or
unmarshalable data, and every call site in the repository passes nil
`params` and JSON-marshalable maps, so the prelude always succeeds
here and the `method`/`data`/`params` arguments are kept for signature
fidelity only.  The loop runs `MaxRetries + 1` times (Go's
`for attempt := 0; attempt <= MaxRetries; attempt++`, hence
`(MaxRetries + 1).toNat` iterations). -/
def makeRequest (c : NenDBClient) (method endpoint : String) (data : Option GoValue)
    (params : List (String × String)) (oracle : Nat → AttemptOutcome) : ReqResult :=
  let _requestURL := c.baseURL ++ endpoint
  let _ := (method, data, params)
  runAttempts c.config oracle (c.config.MaxRetries + 1).toNat 0 none

/-- Number of attempts recorded in a list of events. -/
def countAttempts (es : List ReqEvent) : Nat :=
  (es.filter (fun e => match e with | .attempt _ => true | .sleep _ => false)).length

/-- Number of attempts recorded in a trace. -/
def ReqResult.numAttempts (r : ReqResult) : Nat :=
  countAttempts r.events

/-- Embeds `(*NenDBClient).Health`: builds its own context with a deadline
derived from the configured timeout (`context.WithTimeout` on
`context.Background()`) — it accepts no caller-supplied context — and
issues `GET /health` through `makeRequest`, returning only the error
part. -/
def Health (c : NenDBClient) (oracle : Nat → AttemptOutcome) : Option NenDBError :=
  match (makeRequest c "GET" "/health" none [] oracle).result with
  | .ok _ => none
  | .error e => some e

/-- Embeds `strings.TrimRight(s, "/")`: remove all trailing `'/'`
characters. -/
def stringsTrimRightSlash (s : String) : String :=
  ⟨(s.data.reverse.dropWhile (fun c => c = '/')).reverse⟩

/-- Rendering of a `GoValue` by `fmt`'s `%v` verb, as far as the
repository's error paths need it: only strings, integers, booleans and
nil ever reach `Error()` in the code, so composite and float renderings
are left as fixed placeholders (never reached by any theorem below). -/
def GoValue.render : GoValue → String
  | .nil => "<nil>"
  | .str s => s
  | .int n => toString n
  | .int8 n => toString n
  | .int16 n => toString n
  | .int32 n => toString n
  | .int64 n => toString n
  | .uint n => toString n
  | .uint8 n => toString n
  | .uint16 n => toString n
  | .uint32 n => toString n
  | .uint64 n => toString n
  | .float32 => "<float32>"
  | .float64 => "<float64>"
  | .bool b => if b then "true" else "false"
  | .slice _ => "<slice>"
  | .mapv _ => "<map>"
  | .structv => "\x7b\x7d"
  | .funcv => "<func>"

/-- Insert an entry into a key-sorted list (`fmt` prints map entries
in ascending key order). -/
def insertByKey (x : String × GoValue) : List (String × GoValue) → List (String × GoValue)
  | [] => [x]
  | y :: rest => if x.1 < y.1 then x :: y :: rest else y :: insertByKey x rest

/-- Sort map entries by key, as `fmt` does when printing a Go map. -/
def sortByKey : List (String × GoValue) → List (String × GoValue)
  | [] => []
  | x :: rest => insertByKey x (sortByKey rest)

/-- Rendering by the `%v` verb of a `map[string]interface\x7b\x7d`:
`map[k1:v1 k2:v2]` with keys in ascending order. -/
def goMapRender (entries : List (String × GoValue)) : String :=
  "map[" ++ String.intercalate " "
    ((sortByKey entries).map (fun kv => kv.1 ++ ":" ++ GoValue.render kv.2)) ++ "]"

/-- Embeds `(*NenDBError).Error()`: the message, followed by
`" - Details: <map>"` when the details map is non-empty. -/
def errString (e : NenDBError) : String :=
  if e.details.length > 0 then
    e.message ++ " - Details: " ++ goMapRender e.details
  else
    e.message

/-- The client value `NewClient` assembles before the startup probe:
substitute nothing here — the configuration is kept as given, the base
address is stored with trailing `/` stripped, and an `http.Client`
with the configured timeout is created unless one was supplied. -/
def mkClient (config : ClientConfig) : NenDBClient :=
  ⟨config,
   (match config.HTTPClient with
    | some h => h
    | none => ⟨config.Timeout⟩),
   stringsTrimRightSlash config.BaseURL⟩

/-- Embeds `client.NewClient`: substitute `DefaultConfig` when the
configuration pointer is nil, build the client value, and unless
`SkipValidation` is set run the startup health probe, aborting with a
classified connection error wrapping the probe's error when it
fails. -/
def NewClient (config : Option ClientConfig) (oracle : Nat → AttemptOutcome) :
    Except NenDBError NenDBClient :=
  let config := match config with | none => DefaultConfig | some c => c
  let c : NenDBClient := mkClient config
  if config.SkipValidation then
    .ok c
  else
    match Health c oracle with
    | some err =>
      .error (errors.New .connection ("Failed to connect to NenDB server at " ++ c.baseURL)
        (some [("error", .str (errString err))]))
    | none => .ok c

end client

open types client

/-- Shape asserted by the spec for a failed construction: a
validation-kind classified error.  The constructors in `types.go`
return plain `fmt.Errorf` errors, so this is `false` on their
results. -/
def isValidationErrorResult {α : Type} : Except GoError α → Bool
  | .error (.classified ⟨.validation, _, _⟩) => true
  | _ => false

/-- C8: `IsValidPropertyValue` accepts nil, strings, every signed and
unsigned integer width, both float widths and booleans, and rejects
slices, maps, structs and functions. -/
theorem c8_is_valid_property_value :
    types.IsValidPropertyValue .nil = true ∧
    (∀ s, types.IsValidPropertyValue (.str s) = true) ∧
    (∀ n, types.IsValidPropertyValue (.int n) = true) ∧
    (∀ n, types.IsValidPropertyValue (.int8 n) = true) ∧
    (∀ n, types.IsValidPropertyValue (.int16 n) = true) ∧
    (∀ n, types.IsValidPropertyValue (.int32 n) = true) ∧
    (∀ n, types.IsValidPropertyValue (.int64 n) = true) ∧
    (∀ n, types.IsValidPropertyValue (.uint n) = true) ∧
    (∀ n, types.IsValidPropertyValue (.uint8 n) = true) ∧
    (∀ n, types.IsValidPropertyValue (.uint16 n) = true) ∧
    (∀ n, types.IsValidPropertyValue (.uint32 n) = true) ∧
    (∀ n, types.IsValidPropertyValue (.uint64 n) = true) ∧
    types.IsValidPropertyValue .float32 = true ∧
    types.IsValidPropertyValue .float64 = true ∧
    (∀ b, types.IsValidPropertyValue (.bool b) = true) ∧
    (∀ l, types.IsValidPropertyValue (.slice l) = false) ∧
    (∀ m, types.IsValidPropertyValue (.mapv m) = false) ∧
    types.IsValidPropertyValue .structv = false ∧
    types.IsValidPropertyValue .funcv = false :=
  ⟨rfl, fun _ => rfl, fun _ => rfl, fun _ => rfl, fun _ => rfl, fun _ => rfl, fun _ => rfl,
    fun _ => rfl, fun _ => rfl, fun _ => rfl, fun _ => rfl, fun _ => rfl, rfl, rfl,
    fun _ => rfl, fun _ => rfl, fun _ => rfl, rfl, rfl⟩

/-- C4 counterexample: `NewGraphNode(-1, ...)` fails, but with a plain
`fmt.Errorf` error, not with a validation-kind classified error as the
claim states. -/
theorem c4_counterexample :
    isValidationErrorResult (types.NewGraphNode (-1) (some ["Person"])
      (some [("name", .str "Alice")])) = false ∧
    types.NewGraphNode (-1) (some ["Person"]) (some [("name", .str "Alice")])
      = .error (.errorf "node ID must be a non-negative integer") :=
  ⟨rfl, rfl⟩

/-- C4 amended: every negative identifier passed to `NewGraphNode` or
`NewGraphEdge`, and every empty edge type, algorithm name or message,
makes construction return an error and no object — but the error is a
plain `fmt.Errorf` error, not a classified validation error. -/
theorem c4_amended :
    (∀ id labels props, id < 0 →
      ∃ m, types.NewGraphNode id labels props = .error (.errorf m)) ∧
    (∀ id s t ty props, id < 0 ∨ s < 0 ∨ t < 0 ∨ ty = "" →
      ∃ m, types.NewGraphEdge id s t ty props = .error (.errorf m)) ∧
    (∀ alg st msg meta, alg = "" ∨ msg = "" →
      ∃ m, types.NewAlgorithmResult alg st msg meta = .error (.errorf m)) := by
  refine ⟨?_, ?_, ?_⟩
  · intro id labels props h
    rw [types.NewGraphNode.eq_def, if_pos h]
    exact ⟨_, rfl⟩
  · intro id s t ty props h
    rw [types.NewGraphEdge.eq_def]
    by_cases h1 : id < 0
    · rw [if_pos h1]; exact ⟨_, rfl⟩
    rw [if_neg h1]
    by_cases h2 : s < 0
    · rw [if_pos h2]; exact ⟨_, rfl⟩
    rw [if_neg h2]
    by_cases h3 : t < 0
    · rw [if_pos h3]; exact ⟨_, rfl⟩
    rw [if_neg h3]
    by_cases h4 : ty = ""
    · rw [if_pos h4]; exact ⟨_, rfl⟩
    rcases h with h | h | h | h
    · exact absurd h h1
    · exact absurd h h2
    · exact absurd h h3
    · exact absurd h h4
  · intro alg st msg meta h
    rw [types.NewAlgorithmResult.eq_def]
    by_cases h1 : alg = ""
    · rw [if_pos h1]; exact ⟨_, rfl⟩
    rw [if_neg h1]
    by_cases h2 : msg = ""
    · rw [if_pos h2]; exact ⟨_, rfl⟩
    rcases h with h | h
    · exact absurd h h1
    · exact absurd h h2

/-- C4 amended, witness: concrete failing constructions from the
repository's own tests. -/
theorem c4_amended_witness :
    (∃ m, types.NewGraphNode (-1) (some ["Person"]) (some [("name", .str "Alice")])
      = .error (.errorf m)) ∧
    (∃ m, types.NewGraphEdge 1 1 (-1) "KNOWS" none = .error (.errorf m)) ∧
    (∃ m, types.NewAlgorithmResult "" .statusCompleted "done" none
      = .error (.errorf m)) :=
  ⟨c4_amended.1 (-1) (some ["Person"]) (some [("name", .str "Alice")]) (by decide),
   c4_amended.2.1 1 1 (-1) "KNOWS" none (Or.inr (Or.inr (Or.inl (by decide)))),
   c4_amended.2.2 "" .statusCompleted "done" none (Or.inl rfl)⟩

/-- C5 counterexample: constructing a node with nil labels and nil
properties succeeds (they are normalized to empty collections), yet
`Validate` on the corresponding `GraphNode` value rejects the nil
collections — so the construction-time and re-validation rules are not
identical, and nil collections are a hard failure on the re-validate
path. -/
theorem c5_counterexample :
    (types.NewGraphNode 1 none none).isOk = true ∧
    (types.GraphNode.Validate ⟨1, none, none⟩).isSome = true :=
  ⟨rfl, rfl⟩

/-- C5 amended: construction succeeds exactly when the identifier and
required-string checks pass, normalizing nil collections to empty, and
every constructed value passes `Validate`; but `Validate` itself
additionally rejects nil label lists, property maps and metadata maps
("cannot be nil") instead of normalizing them. -/
theorem c5_amended :
    (∀ id l p, (types.NewGraphNode id l p).isOk = true ↔ 0 ≤ id) ∧
    (∀ id l p n, types.NewGraphNode id l p = .ok n → n.Validate = none) ∧
    (∀ n : types.GraphNode,
      n.Validate = none ↔ 0 ≤ n.ID ∧ n.Labels.isSome ∧ n.Properties.isSome) ∧
    (∀ id s t ty p, (types.NewGraphEdge id s t ty p).isOk = true ↔
      0 ≤ id ∧ 0 ≤ s ∧ 0 ≤ t ∧ ty ≠ "") ∧
    (∀ id s t ty p e, types.NewGraphEdge id s t ty p = .ok e → e.Validate = none) ∧
    (∀ e : types.GraphEdge, e.Validate = none ↔
      0 ≤ e.ID ∧ 0 ≤ e.Source ∧ 0 ≤ e.Target ∧ e.EdgeType ≠ "" ∧ e.Properties.isSome) ∧
    (∀ a st m md, (types.NewAlgorithmResult a st m md).isOk = true ↔ a ≠ "" ∧ m ≠ "") ∧
    (∀ a st m md r, types.NewAlgorithmResult a st m md = .ok r → r.Validate = none) ∧
    (∀ r : types.AlgorithmResult, r.Validate = none ↔
      r.Algorithm ≠ "" ∧ r.Message ≠ "" ∧ r.Metadata.isSome) := by
  refine ⟨?_, ?_, ?_, ?_, ?_, ?_, ?_, ?_, ?_⟩
  · intro id l p
    by_cases h : id < 0 <;> simp [types.NewGraphNode, h, Except.isOk, Except.toBool] <;> omega
  · intro id l p n h
    by_cases hid : id < 0
    · rw [types.NewGraphNode.eq_def, if_pos hid] at h; exact absurd h (by simp)
    rw [types.NewGraphNode.eq_def, if_neg hid] at h
    cases l <;> cases p <;> simp at h <;> subst h <;>
      simp [types.GraphNode.Validate, hid]
  · rintro ⟨id, l, p⟩
    by_cases h : id < 0 <;> cases l <;> cases p <;>
      simp [types.GraphNode.Validate, h] <;> omega
  · intro id s t ty p
    by_cases h1 : id < 0 <;> by_cases h2 : s < 0 <;> by_cases h3 : t < 0 <;>
      by_cases h4 : ty = "" <;>
      simp [types.NewGraphEdge, h1, h2, h3, h4, Except.isOk, Except.toBool] <;> omega
  · intro id s t ty p e h
    by_cases h1 : id < 0
    · rw [types.NewGraphEdge.eq_def, if_pos h1] at h; exact absurd h (by simp)
    by_cases h2 : s < 0
    · rw [types.NewGraphEdge.eq_def, if_neg h1, if_pos h2] at h; exact absurd h (by simp)
    by_cases h3 : t < 0
    · rw [types.NewGraphEdge.eq_def, if_neg h1, if_neg h2, if_pos h3] at h; exact absurd h (by simp)
    by_cases h4 : ty = ""
    · rw [types.NewGraphEdge.eq_def, if_neg h1, if_neg h2, if_neg h3, if_pos h4] at h
      exact absurd h (by simp)
    rw [types.NewGraphEdge.eq_def, if_neg h1, if_neg h2, if_neg h3, if_neg h4] at h
    cases p <;> simp at h <;> subst h <;>
      simp [types.GraphEdge.Validate, h1, h2, h3, h4]
  · rintro ⟨id, s, t, ty, p⟩
    by_cases h1 : id < 0 <;> by_cases h2 : s < 0 <;> by_cases h3 : t < 0 <;>
      by_cases h4 : ty = "" <;> cases p <;>
      simp [types.GraphEdge.Validate, h1, h2, h3, h4] <;> omega
  · intro a st m md
    by_cases h1 : a = "" <;> by_cases h2 : m = "" <;>
      simp [types.NewAlgorithmResult, h1, h2, Except.isOk, Except.toBool]
  · intro a st m md r h
    by_cases h1 : a = ""
    · rw [types.NewAlgorithmResult.eq_def, if_pos h1] at h; exact absurd h (by simp)
    by_cases h2 : m = ""
    · rw [types.NewAlgorithmResult.eq_def, if_neg h1, if_pos h2] at h; exact absurd h (by simp)
    rw [types.NewAlgorithmResult.eq_def, if_neg h1, if_neg h2] at h
    cases md <;> simp at h <;> subst h <;>
      simp [types.AlgorithmResult.Validate, h1, h2]
  · rintro ⟨a, st, m, md⟩
    by_cases h1 : a = "" <;> by_cases h2 : m = "" <;> cases md <;>
      simp [types.AlgorithmResult.Validate, h1, h2]

/-- C5 amended, witness: concrete instances of the amended rules. -/
theorem c5_amended_witness :
    ((types.NewGraphNode 1 none none).isOk = true ↔ (0 : Int) ≤ 1) ∧
    types.GraphNode.Validate ⟨1, some [], some []⟩ = none ∧
    ((types.GraphEdge.Validate ⟨1, 1, 2, "KNOWS", none⟩ = none) ↔
      (0 : Int) ≤ 1 ∧ (0 : Int) ≤ 1 ∧ (0 : Int) ≤ 2 ∧ "KNOWS" ≠ "" ∧
      (none : GoStrMap).isSome) :=
  ⟨c5_amended.1 1 none none,
   c5_amended.2.1 1 none none ⟨1, some [], some []⟩ rfl,
   c5_amended.2.2.2.2.2.1 ⟨1, 1, 2, "KNOWS", none⟩⟩

namespace client

/-- Expected trace of the loop: the events of attempts `k`,
`k + 1`, …, `k + m - 1` in order.  With `k = 0` this is: attempt 0
with no wait, then before each attempt `j > 0` a single sleep of
`RetryDelay * j`. -/
def scheduleSeg (d : Int) : Nat → Nat → List ReqEvent
  | _, 0 => []
  | k, m + 1 => eventsFor d k ++ scheduleSeg d (k + 1) m

theorem countAttempts_nil : countAttempts [] = 0 := rfl

theorem countAttempts_append (a b : List ReqEvent) :
    countAttempts (a ++ b) = countAttempts a + countAttempts b := by
  simp [countAttempts, List.filter_append]

theorem countAttempts_eventsFor (d : Int) (k : Nat) :
    countAttempts (eventsFor d k) = 1 := by
  by_cases h : 0 < k <;> simp [countAttempts, eventsFor, h]

theorem countAttempts_scheduleSeg (d : Int) :
    ∀ m k, countAttempts (scheduleSeg d k m) = m := by
  intro m
  induction m with
  | zero => intro k; simp [scheduleSeg, countAttempts]
  | succ n ih =>
    intro k
    simp [scheduleSeg, countAttempts_append, countAttempts_eventsFor, ih]
    omega

theorem sleep_mem_scheduleSeg (d x : Int) :
    ∀ m k, ReqEvent.sleep x ∈ scheduleSeg d k m → ∃ i : Nat, x = d * (i : Int) := by
  intro m
  induction m with
  | zero => intro k h; simp [scheduleSeg] at h
  | succ n ih =>
    intro k h
    rw [scheduleSeg, List.mem_append] at h
    rcases h with h | h
    · by_cases hk : 0 < k <;> simp [eventsFor, hk] at h
      exact ⟨k, h⟩
    · exact ih (k + 1) h

/-- Unfolding of one loop iteration. -/
theorem runAttempts_succ (cfg : ClientConfig) (oracle : Nat → AttemptOutcome)
    (fuel k : Nat) (lastErr : Option String) :
    runAttempts cfg oracle (fuel + 1) k lastErr =
      match handleOutcome (oracle k) with
      | .inr res => ⟨res, eventsFor cfg.RetryDelay k⟩
      | .inl msg => ⟨(runAttempts cfg oracle fuel (k + 1) (some msg)).result,
          eventsFor cfg.RetryDelay k ++ (runAttempts cfg oracle fuel (k + 1) (some msg)).events⟩ :=
  rfl

/-- When every attempt retries (the oracle never yields a definitive
outcome), the loop runs through all its fuel, records the last
attempt's error, and returns the exhaustion result. -/
theorem runAttempts_allRetry (cfg : ClientConfig) (oracle : Nat → AttemptOutcome)
    (msgs : Nat → String) (h : ∀ j, handleOutcome (oracle j) = .inl (msgs j)) :
    ∀ fuel k lastErr, runAttempts cfg oracle (fuel + 1) k lastErr =
      ⟨exhaustedResult (some (msgs (k + fuel))),
        scheduleSeg cfg.RetryDelay k (fuel + 1)⟩ := by
  intro fuel
  induction fuel with
  | zero =>
    intro k lastErr
    rw [runAttempts_succ, h k]
    rfl
  | succ f ih =>
    intro k lastErr
    rw [runAttempts_succ, h k]
    simp only [ih (k + 1) (some (msgs k))]
    rw [show k + 1 + f = k + (f + 1) by omega]
    rfl

/-- When attempts `k`, …, `k + i - 1` all retry and attempt `k + i`
settles (with fuel to spare), the loop returns that attempt's result
immediately, with exactly `i + 1` attempts in the trace. -/
theorem runAttempts_reach (cfg : ClientConfig) (oracle : Nat → AttemptOutcome) :
    ∀ i fuel k lastErr r,
      (∀ j, j < i → ∃ m, handleOutcome (oracle (k + j)) = .inl m) →
      i < fuel → handleOutcome (oracle (k + i)) = .inr r →
      runAttempts cfg oracle fuel k lastErr = ⟨r, scheduleSeg cfg.RetryDelay k (i + 1)⟩ := by
  intro i
  induction i with
  | zero =>
    intro fuel k lastErr r _ hfuel hr
    cases fuel with
    | zero => omega
    | succ f =>
      simp only [runAttempts]
      rw [show k + 0 = k from rfl] at hr
      rw [hr]
      simp [scheduleSeg]
  | succ i ih =>
    intro fuel k lastErr r hretry hfuel hr
    cases fuel with
    | zero => omega
    | succ f =>
      obtain ⟨m, hm⟩ := hretry 0 (Nat.succ_pos i)
      rw [show k + 0 = k from rfl] at hm
      simp only [runAttempts, hm]
      have hretry2 : ∀ j, j < i → ∃ m2, handleOutcome (oracle (k + 1 + j)) = .inl m2 := by
        intro j hj
        have hj2 := hretry (j + 1) (by omega)
        rwa [show k + (j + 1) = k + 1 + j by omega] at hj2
      have hr2 : handleOutcome (oracle (k + 1 + i)) = .inr r := by
        rwa [show k + (i + 1) = k + 1 + i by omega] at hr
      rw [ih f (k + 1) (some m) r hretry2 (by omega) hr2]
      rfl

/-- Every attempt that is followed by another attempt in the trace was
a retried one: its outcome was handled with `continue`. -/
theorem runAttempts_retried (cfg : ClientConfig) (oracle : Nat → AttemptOutcome) :
    ∀ fuel k lastErr j, k ≤ j →
      j + 1 - k < (runAttempts cfg oracle fuel k lastErr).numAttempts →
      ∃ m, handleOutcome (oracle j) = .inl m := by
  intro fuel
  induction fuel with
  | zero =>
    intro k lastErr j _ hcnt
    simp [runAttempts, ReqResult.numAttempts, countAttempts] at hcnt
  | succ f ih =>
    intro k lastErr j hkj hcnt
    rcases houtcome : handleOutcome (oracle k) with m | r
    · by_cases hj : j = k
      · exact ⟨m, hj ▸ houtcome⟩
      · apply ih (k + 1) (some m) j (by omega)
        simp only [runAttempts, houtcome, ReqResult.numAttempts, countAttempts_append,
          countAttempts_eventsFor] at hcnt
        simp only [ReqResult.numAttempts]
        omega
    · simp only [runAttempts, houtcome, ReqResult.numAttempts,
        countAttempts_eventsFor] at hcnt
      exfalso
      omega

/-- The trace of the loop is an initial segment of the backoff
schedule, with at most `fuel` attempt groups. -/
theorem runAttempts_schedule (cfg : ClientConfig) (oracle : Nat → AttemptOutcome) :
    ∀ fuel k lastErr, ∃ m, m ≤ fuel ∧
      (runAttempts cfg oracle fuel k lastErr).events = scheduleSeg cfg.RetryDelay k m := by
  intro fuel
  induction fuel with
  | zero => intro k lastErr; exact ⟨0, Nat.le_refl 0, rfl⟩
  | succ f ih =>
    intro k lastErr
    rcases houtcome : handleOutcome (oracle k) with m | r
    · obtain ⟨n, hn, hev⟩ := ih (k + 1) (some m)
      refine ⟨n + 1, by omega, ?_⟩
      simp only [runAttempts, houtcome, scheduleSeg]
      exact congrArg _ hev
    · refine ⟨1, by omega, ?_⟩
      simp [runAttempts, houtcome, scheduleSeg]

/-- As `runAttempts_schedule`, phrased through the attempt count. -/
theorem runAttempts_events (cfg : ClientConfig) (oracle : Nat → AttemptOutcome)
    (fuel k : Nat) (lastErr : Option String) :
    (runAttempts cfg oracle fuel k lastErr).events =
      scheduleSeg cfg.RetryDelay k (runAttempts cfg oracle fuel k lastErr).numAttempts ∧
    (runAttempts cfg oracle fuel k lastErr).numAttempts ≤ fuel := by
  obtain ⟨m, hm, hev⟩ := runAttempts_schedule cfg oracle fuel k lastErr
  have hcnt : (runAttempts cfg oracle fuel k lastErr).numAttempts = m := by
    rw [ReqResult.numAttempts, hev, countAttempts_scheduleSeg]
  rw [hcnt, hev]
  exact ⟨rfl, hm⟩

end client

/-- Concrete configuration/client used by witnesses: MaxRetries 2,
RetryDelay 5ns, health probe skipped. -/
def witConfig : ClientConfig :=
  ⟨"http://localhost:9999", 1000000000, 2, 5, true, none⟩

/-- Concrete client for the witnesses. -/
def witClient : NenDBClient := mkClient witConfig

/-- C1: against a server that never responds (every attempt fails at
the transport level), a client with `MaxRetries = N ≥ 0` makes exactly
`N + 1` attempts and gets back no bytes, only a timeout-kind
classified error wrapping the last transport error. -/
theorem c1_retry_exhaustion_on_transport_failure (c : NenDBClient)
    (method endpoint : String) (data : Option GoValue) (params : List (String × String))
    (msgs : Nat → String) (hN : 0 ≤ c.config.MaxRetries) :
    (makeRequest c method endpoint data params
        (fun k => .transportError (msgs k))).numAttempts = c.config.MaxRetries.toNat + 1 ∧
    (makeRequest c method endpoint data params
        (fun k => .transportError (msgs k))).result =
      .error (errors.New .timeout "Request failed after all retries"
        (some [("error", .str (msgs c.config.MaxRetries.toNat))])) := by
  have hfuel : (c.config.MaxRetries + 1).toNat = c.config.MaxRetries.toNat + 1 := by omega
  have hrun := runAttempts_allRetry c.config (fun k => .transportError (msgs k)) msgs
    (fun j => rfl) c.config.MaxRetries.toNat 0 none
  constructor
  · simp only [makeRequest, hfuel, hrun, ReqResult.numAttempts, countAttempts_scheduleSeg]
  · simp only [makeRequest, hfuel, hrun, Nat.zero_add, exhaustedResult]

/-- C1 witness: the concrete client (MaxRetries 2) against a server
refusing every connection makes 3 attempts and reports the classified
timeout wrapping the transport error. -/
theorem c1_witness :
    (makeRequest witClient "GET" "/health" none []
        (fun k => .transportError ((fun _ => "connection refused") k))).numAttempts = 2 + 1 ∧
    (makeRequest witClient "GET" "/health" none []
        (fun k => .transportError ((fun _ => "connection refused") k))).result =
      .error (errors.New .timeout "Request failed after all retries"
        (some [("error", .str "connection refused")])) :=
  c1_retry_exhaustion_on_transport_failure witClient "GET" "/health" none []
    (fun _ => "connection refused") (by decide)

/-- C7: within one call of the request primitive the trace is exactly
the linear backoff schedule — attempt 0 with no preceding wait, and a
single sleep of `RetryDelay * k` immediately before each retry
attempt `k > 0` (this is what `scheduleSeg` lists) — with at most
`MaxRetries + 1` attempts in total. -/
theorem c7_linear_backoff (c : NenDBClient) (method endpoint : String)
    (data : Option GoValue) (params : List (String × String))
    (oracle : Nat → AttemptOutcome) (hN : 0 ≤ c.config.MaxRetries) :
    (makeRequest c method endpoint data params oracle).events =
      scheduleSeg c.config.RetryDelay 0
        (makeRequest c method endpoint data params oracle).numAttempts ∧
    ((makeRequest c method endpoint data params oracle).numAttempts : Int)
      ≤ c.config.MaxRetries + 1 := by
  simp only [makeRequest]
  obtain ⟨hev, hle⟩ := runAttempts_events c.config oracle ((c.config.MaxRetries + 1).toNat) 0 none
  refine ⟨hev, ?_⟩
  omega

/-- C7 witness: the concrete client's trace against a failing server
follows the backoff schedule with at most 3 attempts. -/
theorem c7_witness :
    (makeRequest witClient "GET" "/nodes/1" none []
        (fun _ => .transportError "dial error")).events =
      scheduleSeg 5 0 (makeRequest witClient "GET" "/nodes/1" none []
        (fun _ => .transportError "dial error")).numAttempts ∧
    ((makeRequest witClient "GET" "/nodes/1" none []
        (fun _ => .transportError "dial error")).numAttempts : Int) ≤ 2 + 1 :=
  c7_linear_backoff witClient "GET" "/nodes/1" none []
    (fun _ => .transportError "dial error") (by decide)

/-- Models `httpClient.Do` on a request whose governing context is
already cancelled: Go's transport fails each attempt immediately with
the context's error, so every attempt yields a transport-level error
`"context canceled"`. -/
def cancelledDo : Nat → AttemptOutcome := fun _ => .transportError "context canceled"

/-- C3 counterexample: with the governing context already cancelled,
the backoff sleeps between retries still run for their full durations
(`RetryDelay * 1 = 5` and `RetryDelay * 2 = 10` both appear in the
trace) and all three attempts are still made: the pending backoff
sleep does not abort on cancellation, because `time.Sleep` in the
retry loop takes no context. -/
theorem c3_counterexample :
    (makeRequest witClient "GET" "/health" none [] cancelledDo).events =
      [ReqEvent.attempt 0, ReqEvent.sleep 5, ReqEvent.attempt 1,
       ReqEvent.sleep 10, ReqEvent.attempt 2] := by
  decide

/-- C3 amended: an in-flight attempt under a cancelled context fails
promptly (the request carries the caller's context) and the call
surfaces a classified timeout-kind failure wrapping the context error
rather than hanging; but the backoff sleeps between retries are not
governed by the context — every scheduled sleep `RetryDelay * k` still
runs in full and all `MaxRetries + 1` attempts are still made — and
`Health` accepts no caller-supplied context at all: it derives its own
deadline from the configured timeout and routes through
`makeRequest`. -/
theorem c3_amended (c : NenDBClient) (method endpoint : String) (data : Option GoValue)
    (params : List (String × String)) (hN : 0 ≤ c.config.MaxRetries) :
    (makeRequest c method endpoint data params cancelledDo).result =
      .error (errors.New .timeout "Request failed after all retries"
        (some [("error", .str "context canceled")])) ∧
    (makeRequest c method endpoint data params cancelledDo).events =
      scheduleSeg c.config.RetryDelay 0 (c.config.MaxRetries.toNat + 1) ∧
    (∀ oracle, Health c oracle =
      match (makeRequest c "GET" "/health" none [] oracle).result with
      | .ok _ => none
      | .error e => some e) := by
  have hfuel : (c.config.MaxRetries + 1).toNat = c.config.MaxRetries.toNat + 1 := by omega
  have hrun := runAttempts_allRetry c.config cancelledDo (fun _ => "context canceled")
    (fun j => rfl) c.config.MaxRetries.toNat 0 none
  refine ⟨?_, ?_, fun oracle => rfl⟩
  · simp only [makeRequest, hfuel, hrun, exhaustedResult]
  · simp only [makeRequest, hfuel, hrun]

/-- C3 amended witness: the concrete client under a cancelled context
reports the wrapped context error and still walks the full backoff
schedule. -/
theorem c3_amended_witness :
    (makeRequest witClient "GET" "/health" none [] cancelledDo).result =
      .error (errors.New .timeout "Request failed after all retries"
        (some [("error", .str "context canceled")])) ∧
    (makeRequest witClient "GET" "/health" none [] cancelledDo).events =
      scheduleSeg 5 0 (2 + 1) ∧
    (∀ oracle, Health witClient oracle =
      match (makeRequest witClient "GET" "/health" none [] oracle).result with
      | .ok _ => none
      | .error e => some e) :=
  c3_amended witClient "GET" "/health" none [] (by decide)

/-- The error message the claim predicts for a 4xx/5xx response: the
body's `message` field when the body parses as a JSON object with a
string `message`, otherwise the synthesized `"HTTP <code>: <status>"`
string. -/
def claimedErrorMessage (body : HttpBody) (status : Nat) (statusText : String) : String :=
  match body.asMap with
  | some errorResp =>
    match lookupStringKey (errorResp.getD []) "message" with
    | some m => m
    | none => "HTTP " ++ toString status ++ ": " ++ statusText
  | none => "HTTP " ++ toString status ++ ": " ++ statusText

/-- C2: a definitive status settles the call at once — an attempt
seeing a status ≥ 400 makes `makeRequest` return immediately (trace of
exactly `k + 1` attempts) with a response-kind classified error whose
message follows `claimedErrorMessage`; an attempt seeing a 2xx returns
the raw body bytes immediately; and any attempt that is followed by a
further attempt failed at transport level (connection or body read) or
saw a 3xx status.  The hypothesis `200 ≤ st` on delivered responses
reflects Go's `http.Client.Do`, which never hands an informational
(1xx) response back to the caller. -/
theorem c2_definitive_status_settles (c : NenDBClient) (method endpoint : String)
    (data : Option GoValue) (params : List (String × String))
    (oracle : Nat → AttemptOutcome) :
    (∀ k st txt body,
      (∀ j, j < k → ∃ m, handleOutcome (oracle j) = .inl m) →
      k < (c.config.MaxRetries + 1).toNat →
      oracle k = .response st txt body → 400 ≤ st →
      ∃ e, makeRequest c method endpoint data params oracle =
          ⟨.error e, scheduleSeg c.config.RetryDelay 0 (k + 1)⟩ ∧
        e.kind = .response ∧ e.message = claimedErrorMessage body st txt) ∧
    (∀ k st txt body,
      (∀ j, j < k → ∃ m, handleOutcome (oracle j) = .inl m) →
      k < (c.config.MaxRetries + 1).toNat →
      oracle k = .response st txt body → 200 ≤ st → st < 300 →
      makeRequest c method endpoint data params oracle =
        ⟨.ok body.bytes, scheduleSeg c.config.RetryDelay 0 (k + 1)⟩) ∧
    ((∀ i st txt b, oracle i = .response st txt b → 200 ≤ st) →
      ∀ j, j + 1 < (makeRequest c method endpoint data params oracle).numAttempts →
        (∃ m, oracle j = .transportError m) ∨ (∃ m, oracle j = .bodyReadError m) ∨
        (∃ st txt b, oracle j = .response st txt b ∧ 300 ≤ st ∧ st < 400)) := by
  refine ⟨?_, ?_, ?_⟩
  · intro k st txt body hprior hk hor hst
    have hnot2xx : ¬(200 ≤ st ∧ st < 300) := by omega
    have hsettle : ∃ det, handleOutcome (oracle k) =
        .inr (.error (errors.New .response (claimedErrorMessage body st txt) det)) := by
      rcases hbody : body.asMap with _ | er
      · refine ⟨none, ?_⟩
        simp [handleOutcome, hor, hbody, claimedErrorMessage, hnot2xx, hst]
      · rcases hmsg : lookupStringKey (er.getD []) "message" with _ | m
        · refine ⟨er, ?_⟩
          simp [handleOutcome, hor, hbody, hmsg, claimedErrorMessage, hnot2xx, hst]
        · refine ⟨er, ?_⟩
          simp [handleOutcome, hor, hbody, hmsg, claimedErrorMessage, hnot2xx, hst]
    obtain ⟨det, hdet⟩ := hsettle
    refine ⟨errors.New .response (claimedErrorMessage body st txt) det, ?_, rfl, rfl⟩
    simp only [makeRequest]
    exact runAttempts_reach c.config oracle k ((c.config.MaxRetries + 1).toNat) 0 none _
      (fun j hj => by rw [Nat.zero_add]; exact hprior j hj) hk
      (by rw [Nat.zero_add]; exact hdet)
  · intro k st txt body hprior hk hor hst1 hst2
    have hsettle : handleOutcome (oracle k) = .inr (.ok body.bytes) := by
      simp only [handleOutcome, hor]
      rw [if_pos ⟨hst1, hst2⟩]
    simp only [makeRequest]
    exact runAttempts_reach c.config oracle k ((c.config.MaxRetries + 1).toNat) 0 none _
      (fun j hj => by rw [Nat.zero_add]; exact hprior j hj) hk
      (by rw [Nat.zero_add]; exact hsettle)
  · intro hge200 j hj
    simp only [makeRequest] at hj
    have hj2 : j + 1 - 0 < (runAttempts c.config oracle ((c.config.MaxRetries + 1).toNat)
        0 none).numAttempts := hj
    obtain ⟨m, hm⟩ := runAttempts_retried c.config oracle ((c.config.MaxRetries + 1).toNat)
      0 none j (Nat.zero_le j) hj2
    rcases ho : oracle j with msg | msg | ⟨st, txt, b⟩
    · exact Or.inl ⟨msg, rfl⟩
    · exact Or.inr (Or.inl ⟨msg, rfl⟩)
    · rw [ho] at hm
      have h200 := hge200 j st txt b ho
      have hrange : 300 ≤ st ∧ st < 400 := by
        simp only [handleOutcome] at hm
        by_cases h1 : 200 ≤ st ∧ st < 300
        · rw [if_pos h1] at hm
          exact absurd hm (by simp)
        by_cases h2 : 400 ≤ st
        · rcases hb : b.asMap with _ | er
          · rw [if_neg h1, if_pos h2] at hm
            simp [hb] at hm
          · rw [if_neg h1, if_pos h2] at hm
            rcases hmsg : lookupStringKey (er.getD []) "message" with _ | mm <;>
              simp [hb, hmsg] at hm
        · omega
      exact Or.inr (Or.inr ⟨st, txt, b, rfl, hrange.1, hrange.2⟩)

/-- HTTP 404 body from the spec example. -/
def body404 : HttpBody :=
  ⟨"\x7b\"message\":\"not found\"\x7d", some (some [("message", .str "not found")])⟩

/-- Oracle for a server answering 404 with the example body on every
attempt. -/
def oracle404 : Nat → AttemptOutcome :=
  fun _ => .response 404 "404 Not Found" body404

/-- C2 witness: the spec's example — a 404 with body
`\x7b"message":"not found"\x7d` settles the call after a single
attempt (no retry) with a response-kind error whose message is
`"not found"`. -/
theorem c2_witness :
    ∃ e, makeRequest witClient "GET" "/nodes/1" none [] oracle404 =
        ⟨.error e, [ReqEvent.attempt 0]⟩ ∧
      e.kind = .response ∧ e.message = "not found" :=
  (c2_definitive_status_settles witClient "GET" "/nodes/1" none [] oracle404).1
    0 404 "404 Not Found" body404
    (fun j hj => absurd hj (Nat.not_lt_zero j)) (by decide) rfl (by decide)

/-- C6: with `SkipValidation` false and an unreachable address (every
probe attempt fails at transport level), `NewClient` runs the startup
health probe and returns a connection-kind classified error wrapping
the probe's error — never a client; with `SkipValidation` true it
returns the client for any transport behaviour whatsoever, i.e. no
probe is consulted. -/
theorem c6_startup_probe (cfg : ClientConfig) (msgs : Nat → String) :
    (cfg.SkipValidation = false →
      ∃ err, Health (mkClient cfg) (fun k => .transportError (msgs k)) = some err ∧
        NewClient (some cfg) (fun k => .transportError (msgs k)) =
          .error (errors.New .connection
            ("Failed to connect to NenDB server at " ++ (mkClient cfg).baseURL)
            (some [("error", .str (errString err))]))) ∧
    (cfg.SkipValidation = true →
      ∀ oracle, NewClient (some cfg) oracle = .ok (mkClient cfg)) := by
  constructor
  · intro hskip
    have hH : ∃ err, Health (mkClient cfg) (fun k => .transportError (msgs k)) = some err := by
      rcases hfuel : ((mkClient cfg).config.MaxRetries + 1).toNat with _ | f
      · refine ⟨errors.New .timeout "Request failed after all retries" none, ?_⟩
        simp [Health, makeRequest, hfuel, runAttempts, exhaustedResult]
      · have hrun := runAttempts_allRetry (mkClient cfg).config
          (fun k => .transportError (msgs k)) msgs (fun j => rfl) f 0 none
        refine ⟨errors.New .timeout "Request failed after all retries"
          (some [("error", .str (msgs f))]), ?_⟩
        simp [Health, makeRequest, hfuel, hrun, exhaustedResult]
    obtain ⟨err, herr⟩ := hH
    refine ⟨err, herr, ?_⟩
    simp [NewClient, hskip, herr]
  · intro hskip oracle
    simp [NewClient, hskip]

/-- Concrete configuration with the probe enabled, for the C6
witness. -/
def witConfigProbe : ClientConfig :=
  ⟨"http://localhost:9999", 1000000000, 1, 7, false, none⟩

/-- C6 witness: with the probe enabled and every attempt refused,
construction fails with the classified connection error; with the
probe skipped it succeeds against any transport. -/
theorem c6_witness :
    (∃ err, Health (mkClient witConfigProbe) (fun k => .transportError
          ((fun _ => "connection refused") k)) = some err ∧
      NewClient (some witConfigProbe) (fun k => .transportError
          ((fun _ => "connection refused") k)) =
        .error (errors.New .connection
          ("Failed to connect to NenDB server at " ++ (mkClient witConfigProbe).baseURL)
          (some [("error", .str (errString err))]))) ∧
    (∀ oracle, NewClient (some witConfig) oracle = .ok (mkClient witConfig)) :=
  ⟨(c6_startup_probe witConfigProbe (fun _ => "connection refused")).1 rfl,
   (c6_startup_probe witConfig (fun _ => "unused")).2 rfl⟩

theorem takeWhile_slash_replicate (l : List Char) :
    l.takeWhile (fun c => c = '/') =
      List.replicate (l.takeWhile (fun c => c = '/')).length '/' :=
  List.eq_replicate_iff.mpr ⟨rfl, fun b hb => by
    have hp := List.mem_takeWhile_imp hb
    simpa using hp⟩

theorem dropWhile_head_not {p : Char → Bool} :
    ∀ (l : List Char) (c : Char), (l.dropWhile p).head? = some c → p c = false := by
  intro l
  induction l with
  | nil => intro c h; simp [List.dropWhile] at h
  | cons a t ih =>
    intro c h
    by_cases hp : p a = true
    · rw [List.dropWhile_cons_of_pos hp] at h
      exact ih c h
    · have hpf : p a = false := by simpa using hp
      rw [List.dropWhile_cons_of_neg (by simp [hpf])] at h
      simp only [List.head?_cons, Option.some.injEq] at h
      rw [← h]
      exact hpf

/-- Correctness of trailing-slash stripping: the configured address is
the stored address followed by a run of slashes, and the stored
address does not end in a slash. -/
theorem stringsTrimRightSlash_spec (s : String) :
    (∃ n, s.data = (stringsTrimRightSlash s).data ++ List.replicate n '/') ∧
    (∀ ch, (stringsTrimRightSlash s).data.getLast? = some ch → ch ≠ '/') := by
  constructor
  · refine ⟨(s.data.reverse.takeWhile (fun c => c = '/')).length, ?_⟩
    conv_lhs => rw [← List.reverse_reverse s.data,
      ← List.takeWhile_append_dropWhile (fun c => c = '/') s.data.reverse]
    rw [List.reverse_append]
    congr 1
    rw [takeWhile_slash_replicate, List.reverse_replicate]
    simp
  · intro ch h
    have h2 : (s.data.reverse.dropWhile (fun c => c = '/')).head? = some ch := by
      rw [← List.getLast?_reverse]
      exact h
    have h3 := dropWhile_head_not (s.data.reverse) ch h2
    simpa using h3

/-- C9: a client built from any configuration stores the configured
base address with every trailing `/` removed (`strings.TrimRight`):
the stored address is the configured one minus a trailing run of
slashes and itself ends in no slash; in particular
`"http://localhost:8080/"` is stored as `"http://localhost:8080"`.
The stored address is never reassigned: every operation reads
`c.baseURL` from the immutable client value built here. -/
theorem c9_base_address_normalized (cfg : ClientConfig) (oracle : Nat → AttemptOutcome)
    (c : NenDBClient) (h : NewClient (some cfg) oracle = .ok c) :
    c.baseURL = stringsTrimRightSlash cfg.BaseURL ∧
    (∃ n, cfg.BaseURL.data = c.baseURL.data ++ List.replicate n '/') ∧
    (∀ ch, c.baseURL.data.getLast? = some ch → ch ≠ '/') ∧
    stringsTrimRightSlash "http://localhost:8080/" = "http://localhost:8080" := by
  have hc : c = mkClient cfg := by
    by_cases hs : cfg.SkipValidation
    · simp [NewClient, hs] at h
      exact h.symm
    · rcases hH : Health (mkClient cfg) oracle with _ | err
      · simp [NewClient, hs, hH] at h
        exact h.symm
      · simp [NewClient, hs, hH] at h
  have hbase : c.baseURL = stringsTrimRightSlash cfg.BaseURL := by rw [hc]; rfl
  obtain ⟨hpre, hlast⟩ := stringsTrimRightSlash_spec cfg.BaseURL
  refine ⟨hbase, by rw [hbase]; exact hpre, by rw [hbase]; exact hlast, by decide⟩

/-- Concrete configuration with a trailing slash for the C9
witness. -/
def witConfigSlash : ClientConfig :=
  ⟨"http://localhost:8080/", 1000000000, 3, 5, true, none⟩

/-- C9 witness: the spec's example address with a trailing slash. -/
theorem c9_witness :
    (mkClient witConfigSlash).baseURL = stringsTrimRightSlash witConfigSlash.BaseURL ∧
    (∃ n, witConfigSlash.BaseURL.data =
      (mkClient witConfigSlash).baseURL.data ++ List.replicate n '/') ∧
    (∀ ch, (mkClient witConfigSlash).baseURL.data.getLast? = some ch → ch ≠ '/') ∧
    stringsTrimRightSlash "http://localhost:8080/" = "http://localhost:8080" :=
  c9_base_address_normalized witConfigSlash cancelledDo (mkClient witConfigSlash) rfl

/-- Concrete all-zero configuration for the C10 witness. -/
def zeroConfig : ClientConfig := ⟨"http://localhost:8080", 0, 0, 0, true, none⟩

/-- Concrete zero-delay configuration with retries for the C10
witness. -/
def delayZeroConfig : ClientConfig := ⟨"http://localhost:8080", 0, 2, 0, true, none⟩

/-- C10: documented defaults apply only when the configuration pointer
itself is nil; a non-nil configuration is kept verbatim, so zero
values stay zero — `MaxRetries = 0` gives exactly one attempt,
`RetryDelay = 0` makes every backoff sleep zero-length, and
`Timeout = 0` with no custom HTTP client yields an HTTP client whose
timeout field is zero (Go: no timeout). -/
theorem c10_defaults_only_for_nil_config :
    (∀ oracle, NewClient none oracle = NewClient (some DefaultConfig) oracle) ∧
    (∀ cfg oracle c, NewClient (some cfg) oracle = .ok c → c.config = cfg) ∧
    (∀ c method ep data params oracle, c.config.MaxRetries = 0 →
      (makeRequest c method ep data params oracle).numAttempts = 1) ∧
    (∀ c method ep data params oracle d, c.config.RetryDelay = 0 →
      ReqEvent.sleep d ∈ (makeRequest c method ep data params oracle).events → d = 0) ∧
    (∀ cfg oracle c, cfg.Timeout = 0 → cfg.HTTPClient = none →
      NewClient (some cfg) oracle = .ok c → c.httpClient.timeout = 0) := by
  refine ⟨fun oracle => rfl, ?_, ?_, ?_, ?_⟩
  · intro cfg oracle c h
    by_cases hs : cfg.SkipValidation
    · simp [NewClient, hs] at h
      rw [← h]
      rfl
    · rcases hH : Health (mkClient cfg) oracle with _ | err
      · simp [NewClient, hs, hH] at h
        rw [← h]
        rfl
      · simp [NewClient, hs, hH] at h
  · intro c method ep data params oracle hmr
    simp only [makeRequest]
    rw [hmr]
    have h1 : ((0 : Int) + 1).toNat = 1 := rfl
    rw [h1]
    rcases hout : handleOutcome (oracle 0) with m | r <;>
      simp [runAttempts_succ, hout, runAttempts, ReqResult.numAttempts,
        countAttempts_append, countAttempts_eventsFor, countAttempts_nil]
  · intro c method ep data params oracle d hrd hmem
    simp only [makeRequest] at hmem
    obtain ⟨hev, _⟩ := runAttempts_events c.config oracle ((c.config.MaxRetries + 1).toNat) 0 none
    rw [hev] at hmem
    obtain ⟨i, hi⟩ := sleep_mem_scheduleSeg c.config.RetryDelay d _ 0 hmem
    rw [hrd] at hi
    simpa using hi
  · intro cfg oracle c ht hhc h
    by_cases hs : cfg.SkipValidation
    · simp [NewClient, hs] at h
      rw [← h]
      simp [mkClient, hhc, ht]
    · rcases hH : Health (mkClient cfg) oracle with _ | err
      · simp [NewClient, hs, hH] at h
        rw [← h]
        simp [mkClient, hhc, ht]
      · simp [NewClient, hs, hH] at h

/-- C10 witness: the all-zero configuration at work — config kept
verbatim, one attempt, zero-length sleeps, timeout-free HTTP
client. -/
theorem c10_witness :
    (mkClient zeroConfig).config = zeroConfig ∧
    (makeRequest (mkClient zeroConfig) "GET" "/health" none [] cancelledDo).numAttempts = 1 ∧
    (0 : Int) = 0 ∧
    (mkClient zeroConfig).httpClient.timeout = 0 :=
  ⟨c10_defaults_only_for_nil_config.2.1 zeroConfig cancelledDo (mkClient zeroConfig) rfl,
   c10_defaults_only_for_nil_config.2.2.1 (mkClient zeroConfig) "GET" "/health" none []
     cancelledDo rfl,
   c10_defaults_only_for_nil_config.2.2.2.1 (mkClient delayZeroConfig) "GET" "/health" none []
     cancelledDo 0 rfl (by decide),
   c10_defaults_only_for_nil_config.2.2.2.2 zeroConfig cancelledDo (mkClient zeroConfig)
     rfl rfl rfl⟩
